import Mathlib

/-!
Verification of the synchronization and run-orchestration core of the
Rust-Buddy command-line assistant companion.

The Rust source drives a remote assistant/file/thread HTTP API.  The remote
service is modelled as an environment record giving the outcome every remote
endpoint would return if called, and each embedded operation additionally
returns the trace of remote calls it issued, so that frame properties
("issues no mutating calls") are expressible.  Terminal printing is not
modelled except where the source's behaviour depends on it being a warning
rather than an abort (the file-id mismatch warning, modelled as a flag).
-/

/-! ## File reconciler (src/ais/asst.rs, files region) -/

/-- An account-level file object as returned by the account files list
endpoint (`org_files` in `get_file_hashmap`): an id and a display filename. -/
structure FileObj where
  id : String
  filename : String
  deriving DecidableEq

/-- Characters after the last separator of a path, accumulated left to
right (structural recursion so that concrete instances evaluate). -/
def lastComponentChars : List Char → List Char → List Char
  | [], acc => acc
  | c :: cs, acc =>
    if c = '/' then lastComponentChars cs [] else lastComponentChars cs (acc ++ [c])

/-- `Path::file_name` as exposed by the `XFile` trait (`x_file_name`): the
final component of the path string, `""` when absent. -/
def x_file_name (p : String) : String :=
  ⟨lastComponentChars p.toList []⟩

/-- Whether a character list starts with a pattern. -/
def charsStartWith : List Char → List Char → Bool
  | _, [] => true
  | [], _ :: _ => false
  | c :: cs, p :: ps => c == p && charsStartWith cs ps

/-- Whether a character list contains a pattern as a contiguous run. -/
def charsContain : List Char → List Char → Bool
  | [], pat => pat.isEmpty
  | c :: cs, pat => charsStartWith (c :: cs) pat || charsContain cs pat

/-- Rust `str::contains` on a literal (non-glob) pattern; also the semantics
of a globset `*pat*` glob with default options, where `*` crosses path
separators. -/
def strContains (s pat : String) : Bool :=
  charsContain s.toList pat.toList

/-- Rust suffix test; the semantics of a globset `*.ext` glob with default
options. -/
def strEndsWith (s suffix : String) : Bool :=
  charsStartWith s.toList.reverse suffix.toList.reverse

/-- Pure core of `get_file_hashmap`: keep the account files whose id is
attached to the assistant and pair display filename with id.  The Rust code
collects the pairs into a `HashMap<String, FileId>`; we keep the association
list in construction order and give lookups and value iteration HashMap
semantics through `hmGet` and `hmValues` (for a duplicated key the last
inserted value wins). -/
def get_file_hashmap_pure (asstFileIds : List String) (orgFiles : List FileObj) :
    List (String × String) :=
  (orgFiles.filter (fun f => asstFileIds.contains f.id)).map (fun f => (f.filename, f.id))

/-- HashMap lookup over the association list: the last binding of a key wins,
matching repeated `HashMap::insert` during `collect`. -/
def hmGet (m : List (String × String)) (k : String) : Option String :=
  (m.reverse.find? (fun kv => kv.1 == k)).map (fun kv => kv.2)

/-- HashMap `into_values`: one value per distinct key, namely the binding that
survived collection.  (Real `HashMap` iteration order is arbitrary; we fix
first-occurrence key order, which no verified claim depends on.) -/
def hmValues (m : List (String × String)) : List String :=
  ((m.map (fun kv => kv.1)).dedup).filterMap (fun k => hmGet m k)

/-- Remote calls issued by the file-reconciliation path
(`upload_file_by_name`, including the `get_file_hashmap` it starts with). -/
inductive RCall where
  | asstFilesList
  | orgFilesList
  | fileDelete (fileId : String)
  | asstFileDelete (fileId : String)
  | fileUpload
  | asstFileAttach (fileId : String)
  deriving DecidableEq

/-- Whether a remote call mutates remote state.  The two list calls used to
rebuild the remote file index are the only non-mutating ones. -/
def RCall.isMutating : RCall → Bool
  | .asstFilesList => false
  | .orgFilesList => false
  | _ => true

/-- Environment for one `upload_file_by_name` call: the outcome every remote
endpoint would give if called.  `deleteFile` and `deleteAsstFile` results are
only printed by the source (best-effort deletion), so they do not influence
the outcome. -/
structure UploadEnv where
  asstFilesList : Except String (List String)
  orgFilesList : Except String (List FileObj)
  deleteFile : String → Except String Unit
  deleteAsstFile : String → Except String Unit
  uploadFile : Except String String
  attachFile : String → Except String String

/-- Outcome of `upload_file_by_name`: the returned `Result<(FileId, bool)>`,
whether the "SHOULD NOT HAPPEN, File id not matching" warning was printed,
and the trace of remote calls issued in order. -/
structure UploadOutcome where
  result : Except String (String × Bool)
  warned : Bool
  calls : List RCall

/-- Prefix a list of already-issued calls onto an outcome's trace. -/
def prependCalls (cs : List RCall) (o : UploadOutcome) : UploadOutcome :=
  ⟨o.result, o.warned, cs ++ o.calls⟩

/-- Tail of `upload_file_by_name` after the early-return check: best-effort
deletion of the stale file and of its assistant attachment when an old id was
found (both results only logged), then upload, then attach.  A mismatch
between the uploaded file id and the attachment id sets the warning flag but
the call still succeeds, returning the attachment id with `true`. -/
def upload_do_upload (env : UploadEnv) (fileId : Option String) : UploadOutcome :=
  let delCalls :=
    match fileId with
    | some fid => [RCall.fileDelete fid, RCall.asstFileDelete fid]
    | none => []
  match env.uploadFile with
  | .error e => ⟨.error e, false, delCalls ++ [RCall.fileUpload]⟩
  | .ok uid =>
    match env.attachFile uid with
    | .error e => ⟨.error e, false, delCalls ++ [RCall.fileUpload, RCall.asstFileAttach uid]⟩
    | .ok aid =>
      ⟨.ok (aid, true), uid != aid, delCalls ++ [RCall.fileUpload, RCall.asstFileAttach uid]⟩

/-- `upload_file_by_name`: rebuild the remote file index (two list calls),
look up the file's base name, return the existing id with `false` when found
and not forced, otherwise proceed to delete/upload/attach. -/
def upload_file_by_name (env : UploadEnv) (file : String) (force : Bool) :
    UploadOutcome :=
  match env.asstFilesList with
  | .error e => ⟨.error e, false, [RCall.asstFilesList]⟩
  | .ok asstIds =>
    match env.orgFilesList with
    | .error e => ⟨.error e, false, [RCall.asstFilesList, RCall.orgFilesList]⟩
    | .ok orgFiles =>
      let fileId := hmGet (get_file_hashmap_pure asstIds orgFiles) (x_file_name file)
      match force, fileId with
      | false, some fid =>
        ⟨.ok (fid, false), false, [RCall.asstFilesList, RCall.orgFilesList]⟩
      | _, _ =>
        prependCalls [RCall.asstFilesList, RCall.orgFilesList] (upload_do_upload env fileId)

/-! ## Run orchestrator (src/ais/asst.rs, thread region; src/ais/msg.rs) -/

/-- `RunStatus` of the remote run object, as in the `async_openai` crate. -/
inductive RunStatus where
  | queued
  | inProgress
  | requiresAction
  | cancelling
  | cancelled
  | failed
  | completed
  | expired
  deriving DecidableEq

/-- Rust `{:?}` (derived `Debug`) rendering of a run status, used verbatim in
the error message of `run_thread_msg`. -/
def statusDebug : RunStatus → String
  | .queued => "Queued"
  | .inProgress => "InProgress"
  | .requiresAction => "RequiresAction"
  | .cancelling => "Cancelling"
  | .cancelled => "Cancelled"
  | .failed => "Failed"
  | .completed => "Completed"
  | .expired => "Expired"

/-- `POLLING_DURATION_MS`: the fixed sleep, in milliseconds, between two run
status checks. -/
def POLLING_DURATION_MS : Nat := 500

/-- One content block of a thread message (`MessageContent`). -/
inductive MessageContent where
  | text (value : String)
  | imageFile (fileId : String)
  deriving DecidableEq

/-- A thread message (`MessageObject`): its ordered content blocks. -/
structure MessageObject where
  content : List MessageContent
  deriving DecidableEq

/-- `get_text_content` (src/ais/msg.rs): first content block of the message;
non-text content and an empty block list are explicit errors. -/
def get_text_content (msg : MessageObject) : Except String String :=
  match msg.content with
  | [] => .error "No message content found"
  | c :: _ =>
    match c with
    | .text v => .ok v
    | .imageFile _ => .error "Message image not supported yet"

/-- `get_first_thread_msg_content`: list the thread messages with page size 1
(`limit=1`, modelled by `take 1` on the newest-first message list) and take
the first one; an empty list is an explicit error. -/
def get_first_thread_msg_content (messages : List MessageObject) : Except String String :=
  match messages.take 1 with
  | [] => .error "No message found"
  | m :: _ => get_text_content m

/-- What one observed run status makes the polling loop of `run_thread_msg`
do: return the reply, keep looping, or fail with the status embedded. -/
inductive StepOutcome where
  | reply
  | continueLoop
  | fail (msg : String)
  deriving DecidableEq

/-- The `match run.status` arm of the polling loop: `Completed` returns the
reply, `Queued` and `InProgress` fall through to the sleep, anything else is
an error embedding the raw status. -/
def run_step : RunStatus → StepOutcome
  | .completed => .reply
  | .queued => .continueLoop
  | .inProgress => .continueLoop
  | s => .fail ("ERROR WHILE RUN: " ++ statusDebug s)

/-- The polling loop, driven by the scripted sequence of statuses successive
`retrieve` calls would observe.  `sleeps` accumulates the duration of each
sleep taken so far; the result is `none` when the script is exhausted before
a deciding status (the real loop would keep polling). -/
def run_loop : List RunStatus → List MessageObject → List Nat →
    Option (Except String String × List Nat)
  | [], _, _ => none
  | s :: rest, msgs, sleeps =>
    match run_step s with
    | .reply => some (get_first_thread_msg_content msgs, sleeps)
    | .fail e => some (.error e, sleeps)
    | .continueLoop => run_loop rest msgs (sleeps ++ [POLLING_DURATION_MS])

/-- Environment of one `run_thread_msg` call: outcome of appending the user
message, outcome of creating the run (its id), the statuses successive run
retrievals observe, and the newest-first thread message list. -/
structure RunEnv where
  createMsg : Except String Unit
  createRun : Except String String
  statuses : List RunStatus
  messages : List MessageObject

/-- `run_thread_msg`: append the user message, create the run, then poll.
Returns the `Result<String>` together with the list of sleeps taken, or
`none` when the status script is exhausted (non-termination within the
script). -/
def run_thread_msg (env : RunEnv) : Option (Except String String × List Nat) :=
  match env.createMsg with
  | .error e => some (.error e, [])
  | .ok _ =>
    match env.createRun with
    | .error e => some (.error e, [])
    | .ok _ => run_loop env.statuses env.messages []

/-! ## Assistant lifecycle manager (src/ais/asst.rs, Asst CRUD region) -/

/-- A remote assistant object as returned by the assistants list endpoint:
an id and an optional name. -/
structure AsstObj where
  id : String
  name : Option String
  deriving DecidableEq

/-- Remote calls issued by the assistant lifecycle path
(`load_or_create_asst`, `first_by_name`, `delete`, `create`). -/
inductive ACall where
  | asstList
  | asstFilesList (asstId : String)
  | orgFilesList
  | fileDelete (fileId : String)
  | asstDelete (asstId : String)
  | asstCreate (name : String) (model : String)
  deriving DecidableEq

/-- Environment for one assistant lifecycle pass: the outcome every remote
endpoint would give if called.  `deleteFile` results are only printed by the
source (deleting a possibly already-deleted file is tolerated), so they do
not influence the outcome. -/
structure AsstEnv where
  assistants : Except String (List AsstObj)
  asstFiles : String → Except String (List String)
  orgFiles : Except String (List FileObj)
  deleteFile : String → Except String Unit
  deleteAsst : String → Except String Unit
  createAsst : Except String String

/-- Pure core of `first_by_name`: the first assistant of the listed page
whose name matches exactly. -/
def first_by_name (assts : List AsstObj) (name : String) : Option AsstObj :=
  assts.find? (fun a =>
    match a.name with
    | some n => n == name
    | none => false)

/-- `delete` (assistant deletion): rebuild the name-to-id file map of the
assistant, delete each of its values (the result is only used to decide
whether to print a confirmation, so failures are tolerated), then delete the
assistant itself; attachment records are not deleted separately. -/
def asst_delete (env : AsstEnv) (asstId : String) : Except String Unit × List ACall :=
  match env.asstFiles asstId with
  | .error e => (.error e, [ACall.asstFilesList asstId])
  | .ok ids =>
    match env.orgFiles with
    | .error e => (.error e, [ACall.asstFilesList asstId, ACall.orgFilesList])
    | .ok ofs =>
      let delCalls := (hmValues (get_file_hashmap_pure ids ofs)).map ACall.fileDelete
      match env.deleteAsst asstId with
      | .error e =>
        (.error e,
          [ACall.asstFilesList asstId, ACall.orgFilesList] ++ delCalls ++
            [ACall.asstDelete asstId])
      | .ok _ =>
        (.ok (),
          [ACall.asstFilesList asstId, ACall.orgFilesList] ++ delCalls ++
            [ACall.asstDelete asstId])

/-- `load_or_create_asst`: look the assistant up by exact name on the first
listed page; when `recreate` is set and it exists, delete it (files first)
and create a fresh one; otherwise return the found id or create one. -/
def load_or_create_asst (env : AsstEnv) (name model : String) (recreate : Bool) :
    Except String String × List ACall :=
  match env.assistants with
  | .error e => (.error e, [ACall.asstList])
  | .ok assts =>
    match recreate, first_by_name assts name with
    | true, some a =>
      match asst_delete env a.id with
      | (.error e, cs) => (.error e, ACall.asstList :: cs)
      | (.ok _, cs) =>
        match env.createAsst with
        | .error e => (.error e, ACall.asstList :: cs ++ [ACall.asstCreate name model])
        | .ok cid => (.ok cid, ACall.asstList :: cs ++ [ACall.asstCreate name model])
    | false, some a => (.ok a.id, [ACall.asstList])
    | _, none =>
      match env.createAsst with
      | .error e => (.error e, [ACall.asstList, ACall.asstCreate name model])
      | .ok cid => (.ok cid, [ACall.asstList, ACall.asstCreate name model])

/-! ## Conversation manager (src/buddy/mod.rs, load_or_create_conv) -/

/-- State of the persisted `conv.json` record: absent, present but failing to
load as a record, or loading successfully with a thread id. -/
inductive ConvFile where
  | absent
  | invalid
  | valid (threadId : String)
  deriving DecidableEq

/-- Environment of one `load_or_create_conv` call: the persisted record's
state and the outcomes the remote thread endpoints would give. -/
structure ConvEnv where
  convFile : ConvFile
  getThread : String → Except String Unit
  createThread : Except String String
  saveConv : Except String Unit

/-- Outcome of `load_or_create_conv`: the returned `Result<Conv>` (its thread
id), the final state of the persisted record, and whether a new remote
thread was created. -/
structure ConvOutcome where
  result : Except String String
  finalFile : ConvFile
  threadCreated : Bool

/-- The record state after the `recreate` removal step (`fs::remove_file`,
whose result the source discards; removal of an existing file is modelled as
succeeding). -/
def conv_effective_file (file : ConvFile) (recreate : Bool) : ConvFile :=
  if recreate ∧ file ≠ ConvFile.absent then ConvFile.absent else file

/-- `load_from_json::<Conv>`: only a validly persisted record yields a thread
id; a missing or unparseable file is an error (whose text the source never
inspects). -/
def load_from_json_conv : ConvFile → Except String String
  | .valid tid => .ok tid
  | .invalid => .error "invalid conv.json"
  | .absent => .error "no conv.json"

/-- The exact `map_err` message of `load_or_create_conv`, embedding the
derived `Debug` rendering of the loaded `Conv`. -/
def conv_not_found_msg (tid : String) : String :=
  "Connot find thread_id for Conv \x7b thread_id: ThreadId(\"" ++ tid ++ "\") \x7d"

/-- `load_or_create_conv`: optionally drop the persisted record, then either
verify the loaded record's thread remotely (failure is a hard error that
replaces the underlying message) or create a fresh thread, persist it and
return it. -/
def load_or_create_conv (env : ConvEnv) (recreate : Bool) : ConvOutcome :=
  let file0 := conv_effective_file env.convFile recreate
  match load_from_json_conv file0 with
  | .ok tid =>
    match env.getThread tid with
    | .error _ => ⟨.error (conv_not_found_msg tid), file0, false⟩
    | .ok _ => ⟨.ok tid, file0, false⟩
  | .error _ =>
    match env.createThread with
    | .error e => ⟨.error e, file0, false⟩
    | .ok nid =>
      match env.saveConv with
      | .error e => ⟨.error e, ConvFile.invalid, true⟩
      | .ok _ => ⟨.ok nid, ConvFile.valid nid, true⟩

/-! ## Bundle builder (src/utils/files.rs, bundle_to_file) -/

/-- The bytes `writeln!(writer, "\n// ==== file path: {}\n", path)` emits for
one input file's header marker (the trailing newline is the `writeln!`). -/
def bundle_header (p : String) : String :=
  "\n// ==== file path: " ++ p ++ "\n\n"

/-- The bytes `writeln!(writer, "\n\n")` emits as the blank separator after a
file's lines. -/
def bundle_sep : String := "\n\n\n"

/-- The bytes emitted for one input file: header marker, each line re-emitted
with `writeln!` (so with a terminating newline), then the blank separator. -/
def bundle_render_file (p : String) (ls : List String) : String :=
  bundle_header p ++ String.join (ls.map (fun l => l ++ "\n")) ++ bundle_sep

/-- The exact error of `bundle_to_file` for a non-regular-file input, with
the `{:?}` rendering of the path. -/
def bundle_not_file_msg (p : String) : String :=
  "Connot bundle '\"" ++ p ++ "\"' is not a file."

/-- `bundle_to_file` over a local filesystem modelled as a map from path to
`some` line list for a regular readable file and `none` otherwise.  The
destination is opened for truncating write, so on success its final content
is exactly the returned string; failure aborts the bundle (the partial bytes
already buffered are not modelled).  The flush at the end has no observable
effect beyond the content itself. -/
def bundle_to_file (fs : String → Option (List String)) : List String → Except String String
  | [] => .ok ""
  | f :: rest =>
    match fs f with
    | none => .error (bundle_not_file_msg f)
    | some ls =>
      match bundle_to_file fs rest with
      | .error e => .error e
      | .ok s => .ok (bundle_render_file f ls ++ s)

/-! ## Stale bundle purge (src/buddy/mod.rs, upload_files cleanup loop) -/

/-- The candidate files of the cleanup loop of `Buddy::upload_files`: the
files listed in the hidden `.buddy/files` directory that match the include
globs `*.rs`, `*.md` and are not excluded by `*{asst_id}*` (globset with
default options: `*` crosses separators, so the exclude glob is a substring
test on the path and the include globs are suffix tests). -/
def purge_candidates (asstId : String) (dataFiles : List String) : List String :=
  dataFiles.filter (fun f =>
    (strEndsWith f ".rs" || strEndsWith f ".md") && !(strContains f asstId))

/-- The cleanup loop body: for each candidate in order, abort with an error
when its path string does not contain `".buddy"`, otherwise remove it
(removal modelled as succeeding).  Returns the removed files in order and
the error, if any, that stopped the loop. -/
def purge_loop : List String → List String → List String × Option String
  | [], deleted => (deleted, none)
  | f :: rest, deleted =>
    if strContains f ".buddy" then purge_loop rest (deleted ++ [f])
    else (deleted, some ("Error should no delete: '" ++ f ++ "'"))

/-- The cleanup phase of `Buddy::upload_files`, run before any rebundling:
list the stale candidates and run the guarded removal loop over them.  An
error here aborts `upload_files` before any bundle is rebuilt or uploaded. -/
def upload_files_clean (asstId : String) (dataFiles : List String) :
    List String × Option String :=
  purge_loop (purge_candidates asstId dataFiles) []

/-- C1: with `force = false`, when the freshly rebuilt remote index maps the
file's base name to an id, `upload_file_by_name` returns that id with
`wasUploaded = false`, and its remote-call trace is exactly the two index
list calls, none of which is mutating. -/
theorem upload_skip_existing_no_mutation (env : UploadEnv) (file : String)
    (asstIds : List String) (orgFiles : List FileObj) (fid : String)
    (hA : env.asstFilesList = .ok asstIds)
    (hO : env.orgFilesList = .ok orgFiles)
    (hFind : hmGet (get_file_hashmap_pure asstIds orgFiles) (x_file_name file) = some fid) :
    upload_file_by_name env file false =
      ⟨.ok (fid, false), false, [RCall.asstFilesList, RCall.orgFilesList]⟩ ∧
    ∀ c ∈ (upload_file_by_name env file false).calls, c.isMutating = false := by
  have h1 : upload_file_by_name env file false =
      ⟨.ok (fid, false), false, [RCall.asstFilesList, RCall.orgFilesList]⟩ := by
    simp [upload_file_by_name, hA, hO, hFind]
  refine ⟨h1, ?_⟩
  rw [h1]
  intro c hc
  fin_cases hc <;> rfl

theorem upload_skip_existing_no_mutation_witness :
    upload_file_by_name
        ⟨.ok ["file_123"], .ok [⟨"file_123", "notes.md"⟩], fun _ => .ok (),
          fun _ => .ok (), .ok "file_999", fun _ => .ok "file_999"⟩
        "proj/.buddy/files/notes.md" false =
      ⟨.ok ("file_123", false), false, [RCall.asstFilesList, RCall.orgFilesList]⟩ :=
  (upload_skip_existing_no_mutation
      ⟨.ok ["file_123"], .ok [⟨"file_123", "notes.md"⟩], fun _ => .ok (),
        fun _ => .ok (), .ok "file_999", fun _ => .ok "file_999"⟩
      "proj/.buddy/files/notes.md" ["file_123"] [⟨"file_123", "notes.md"⟩] "file_123"
      rfl rfl (by decide)).1

/-- C8: when the upload succeeds and the attach step returns an id different
from the uploaded file's id, `upload_file_by_name` raises the loud warning but
does not abort: it still returns successfully with the attachment id and
`wasUploaded = true`. -/
theorem upload_attach_id_mismatch_warns_not_abort (env : UploadEnv) (file : String)
    (force : Bool) (asstIds : List String) (orgFiles : List FileObj) (uid aid : String)
    (hA : env.asstFilesList = .ok asstIds)
    (hO : env.orgFilesList = .ok orgFiles)
    (hReach : force = true ∨
      hmGet (get_file_hashmap_pure asstIds orgFiles) (x_file_name file) = none)
    (hUp : env.uploadFile = .ok uid)
    (hAt : env.attachFile uid = .ok aid)
    (hNe : uid ≠ aid) :
    (upload_file_by_name env file force).result = .ok (aid, true) ∧
    (upload_file_by_name env file force).warned = true := by
  have hwarn : (uid != aid) = true := by
    simp [bne_iff_ne, hNe]
  rcases hReach with hF | hNone
  · subst hF
    cases hmGet (get_file_hashmap_pure asstIds orgFiles) (x_file_name file) with
    | none =>
      simp_all [upload_file_by_name, upload_do_upload, prependCalls]
    | some fid =>
      simp_all [upload_file_by_name, upload_do_upload, prependCalls]
  · cases force <;>
      simp_all [upload_file_by_name, upload_do_upload, prependCalls]

theorem upload_attach_id_mismatch_warns_not_abort_witness :
    (upload_file_by_name
        ⟨.ok [], .ok [], fun _ => .ok (), fun _ => .ok (), .ok "file_a",
          fun _ => .ok "file_b"⟩
        "proj/.buddy/files/notes.md" false).result = .ok ("file_b", true) ∧
    (upload_file_by_name
        ⟨.ok [], .ok [], fun _ => .ok (), fun _ => .ok (), .ok "file_a",
          fun _ => .ok "file_b"⟩
        "proj/.buddy/files/notes.md" false).warned = true :=
  upload_attach_id_mismatch_warns_not_abort
    ⟨.ok [], .ok [], fun _ => .ok (), fun _ => .ok (), .ok "file_a",
      fun _ => .ok "file_b"⟩
    "proj/.buddy/files/notes.md" false [] [] "file_a" "file_b"
    rfl rfl (Or.inr (by decide)) rfl rfl (by decide)

/-- Helper: a prefix of statuses that all continue the loop is consumed,
adding one fixed-duration sleep per status. -/
lemma run_loop_skip_continue (pre : List RunStatus)
    (hpre : ∀ x ∈ pre, x = RunStatus.queued ∨ x = RunStatus.inProgress)
    (tail : List RunStatus) (msgs : List MessageObject) (acc : List Nat) :
    run_loop (pre ++ tail) msgs acc =
      run_loop tail msgs (acc ++ List.replicate pre.length POLLING_DURATION_MS) := by
  induction pre generalizing acc with
  | nil => simp
  | cons x xs ih =>
    have hx := hpre x (by simp)
    have hxs : ∀ y ∈ xs, y = RunStatus.queued ∨ y = RunStatus.inProgress :=
      fun y hy => hpre y (by simp [hy])
    have hstep : run_step x = StepOutcome.continueLoop := by
      rcases hx with h | h <;> subst h <;> rfl
    calc run_loop (x :: xs ++ tail) msgs acc
        = run_loop (xs ++ tail) msgs (acc ++ [POLLING_DURATION_MS]) := by
          simp [run_loop, hstep]
      _ = run_loop tail msgs
            ((acc ++ [POLLING_DURATION_MS]) ++ List.replicate xs.length POLLING_DURATION_MS) :=
          ih hxs _
      _ = run_loop tail msgs
            (acc ++ List.replicate (x :: xs).length POLLING_DURATION_MS) := by
          simp [List.replicate_succ, List.append_assoc]

/-- C2: once message append and run creation succeeded, a status other than
`Completed`, `Queued` and `InProgress` observed after any run of continuing
statuses makes `run_thread_msg` return the error embedding that exact status
rendering, with one sleep per preceding continuing status and nothing
afterwards (no retry); and `Queued`/`InProgress` are exactly the statuses
that continue the loop. -/
theorem run_terminal_error_status (env : RunEnv) (pre : List RunStatus)
    (s : RunStatus) (rest : List RunStatus) (rid : String)
    (hM : env.createMsg = .ok ())
    (hR : env.createRun = .ok rid)
    (hS : env.statuses = pre ++ s :: rest)
    (hpre : ∀ x ∈ pre, x = RunStatus.queued ∨ x = RunStatus.inProgress)
    (hs1 : s ≠ RunStatus.completed) (hs2 : s ≠ RunStatus.queued)
    (hs3 : s ≠ RunStatus.inProgress) :
    run_thread_msg env =
      some (.error ("ERROR WHILE RUN: " ++ statusDebug s),
        List.replicate pre.length POLLING_DURATION_MS) ∧
    ∀ t : RunStatus, run_step t = StepOutcome.continueLoop ↔
      (t = RunStatus.queued ∨ t = RunStatus.inProgress) := by
  constructor
  · have hstep : run_step s = .fail ("ERROR WHILE RUN: " ++ statusDebug s) := by
      cases s <;> first | rfl | simp_all
    rw [run_thread_msg, hM, hR, hS, run_loop_skip_continue pre hpre (s :: rest) env.messages []]
    simp [run_loop, hstep]
  · intro t
    cases t <;> simp [run_step]

theorem run_terminal_error_status_witness :
    run_thread_msg ⟨.ok (), .ok "run_1", [RunStatus.queued, RunStatus.failed], []⟩ =
      some (.error ("ERROR WHILE RUN: " ++ statusDebug RunStatus.failed),
        List.replicate 1 POLLING_DURATION_MS) :=
  (run_terminal_error_status ⟨.ok (), .ok "run_1", [RunStatus.queued, RunStatus.failed], []⟩
      [RunStatus.queued] RunStatus.failed [] "run_1" rfl rfl rfl
      (by decide) (by decide) (by decide) (by decide)).1

/-- C3: on the status script `[Queued, Queued, Completed]` with a thread whose
single newest message is the text `"hello"`, `run_thread_msg` terminates
within the script, takes exactly two sleeps of `POLLING_DURATION_MS = 500`
milliseconds, and returns `"hello"` (fetched from the page-size-1 message
list). -/
theorem run_queued_queued_completed :
    run_thread_msg
        ⟨.ok (), .ok "run_1",
          [RunStatus.queued, RunStatus.queued, RunStatus.completed],
          [⟨[MessageContent.text "hello"]⟩]⟩ =
      some (.ok "hello", [POLLING_DURATION_MS, POLLING_DURATION_MS]) ∧
    POLLING_DURATION_MS = 500 :=
  ⟨rfl, rfl⟩

/-- C4 counterexample: with `recreate = true` on an existing assistant that
has two attached files sharing one display filename, the recreate pass
completes (new assistant id returned) but deletes only the file that
survived the name-keyed map: `file_2` is deleted, the equally attached
`file_1` never is.  So "every file attached to that assistant is deleted" is
false as stated. -/
theorem load_or_create_asst_misses_duplicate_named_file :
    (load_or_create_asst
        ⟨.ok [⟨"asst_1", some "buddy-01"⟩], fun _ => .ok ["file_1", "file_2"],
          .ok [⟨"file_1", "dup.md"⟩, ⟨"file_2", "dup.md"⟩], fun _ => .ok (),
          fun _ => .ok (), .ok "asst_2"⟩
        "buddy-01" "gpt-4" true).1 = .ok "asst_2" ∧
    ACall.fileDelete "file_2" ∈
      (load_or_create_asst
        ⟨.ok [⟨"asst_1", some "buddy-01"⟩], fun _ => .ok ["file_1", "file_2"],
          .ok [⟨"file_1", "dup.md"⟩, ⟨"file_2", "dup.md"⟩], fun _ => .ok (),
          fun _ => .ok (), .ok "asst_2"⟩
        "buddy-01" "gpt-4" true).2 ∧
    ACall.fileDelete "file_1" ∉
      (load_or_create_asst
        ⟨.ok [⟨"asst_1", some "buddy-01"⟩], fun _ => .ok ["file_1", "file_2"],
          .ok [⟨"file_1", "dup.md"⟩, ⟨"file_2", "dup.md"⟩], fun _ => .ok (),
          fun _ => .ok (), .ok "asst_2"⟩
        "buddy-01" "gpt-4" true).2 := by
  refine ⟨rfl, ?_, ?_⟩ <;> decide

/-- C4 (amended): with `recreate = true` on an assistant found by exact name
match, every file in the rebuilt display-name index of its attached files
(attached ids intersected with the account file list, keyed by display name,
one entry per name) is deleted first — regardless of whether each file
delete succeeds — then the assistant itself is deleted, then a new assistant
is created with the same name and model and its id is returned; the trace
equality fixes that order and shows attachment records are not deleted
separately. -/
theorem load_or_create_asst_recreate_deletes_index_then_creates
    (env : AsstEnv) (name model : String) (assts : List AsstObj) (a : AsstObj)
    (ids : List String) (ofs : List FileObj) (cid : String)
    (hL : env.assistants = .ok assts)
    (hF : first_by_name assts name = some a)
    (hAF : env.asstFiles a.id = .ok ids)
    (hOF : env.orgFiles = .ok ofs)
    (hDA : env.deleteAsst a.id = .ok ())
    (hC : env.createAsst = .ok cid) :
    load_or_create_asst env name model true =
      (.ok cid,
        [ACall.asstList, ACall.asstFilesList a.id, ACall.orgFilesList] ++
          (hmValues (get_file_hashmap_pure ids ofs)).map ACall.fileDelete ++
          [ACall.asstDelete a.id, ACall.asstCreate name model]) := by
  simp [load_or_create_asst, asst_delete, hL, hF, hAF, hOF, hDA, hC]

theorem load_or_create_asst_recreate_witness :
    load_or_create_asst
        ⟨.ok [⟨"asst_1", some "buddy-01"⟩], fun _ => .ok ["file_1", "file_2"],
          .ok [⟨"file_1", "a.md"⟩, ⟨"file_2", "b.md"⟩], fun _ => .error "gone",
          fun _ => .ok (), .ok "asst_2"⟩
        "buddy-01" "gpt-4" true =
      (.ok "asst_2",
        [ACall.asstList, ACall.asstFilesList "asst_1", ACall.orgFilesList] ++
          (hmValues (get_file_hashmap_pure ["file_1", "file_2"]
            [⟨"file_1", "a.md"⟩, ⟨"file_2", "b.md"⟩])).map ACall.fileDelete ++
          [ACall.asstDelete "asst_1", ACall.asstCreate "buddy-01" "gpt-4"]) :=
  load_or_create_asst_recreate_deletes_index_then_creates
    ⟨.ok [⟨"asst_1", some "buddy-01"⟩], fun _ => .ok ["file_1", "file_2"],
      .ok [⟨"file_1", "a.md"⟩, ⟨"file_2", "b.md"⟩], fun _ => .error "gone",
      fun _ => .ok (), .ok "asst_2"⟩
    "buddy-01" "gpt-4" [⟨"asst_1", some "buddy-01"⟩] ⟨"asst_1", some "buddy-01"⟩
    ["file_1", "file_2"] [⟨"file_1", "a.md"⟩, ⟨"file_2", "b.md"⟩] "asst_2"
    rfl (by decide) rfl rfl rfl rfl

/-- C7: when the persisted record loads successfully to a thread id but the
remote retrieval of that thread fails, `load_or_create_conv` returns the
hard error, creates no thread, and leaves the persisted record untouched. -/
theorem conv_thread_verify_failure_hard_error (env : ConvEnv) (recreate : Bool)
    (tid e : String)
    (hEff : conv_effective_file env.convFile recreate = ConvFile.valid tid)
    (hG : env.getThread tid = .error e) :
    load_or_create_conv env recreate =
      ⟨.error (conv_not_found_msg tid), ConvFile.valid tid, false⟩ ∧
    (load_or_create_conv env recreate).finalFile = env.convFile := by
  have hFile : env.convFile = ConvFile.valid tid := by
    unfold conv_effective_file at hEff
    split at hEff
    · exact absurd hEff (by simp)
    · exact hEff
  have h1 : load_or_create_conv env recreate =
      ⟨.error (conv_not_found_msg tid), ConvFile.valid tid, false⟩ := by
    simp [load_or_create_conv, hEff, load_from_json_conv, hG]
  exact ⟨h1, by rw [h1, hFile]⟩

theorem conv_thread_verify_failure_hard_error_witness :
    load_or_create_conv
        ⟨ConvFile.valid "thread_1", fun _ => .error "404", .ok "thread_2", .ok ()⟩
        false =
      ⟨.error (conv_not_found_msg "thread_1"), ConvFile.valid "thread_1", false⟩ :=
  (conv_thread_verify_failure_hard_error
      ⟨ConvFile.valid "thread_1", fun _ => .error "404", .ok "thread_2", .ok ()⟩
      false "thread_1" "404" rfl rfl).1

/-- C10: when the persisted record exists but fails to load as a valid
record, `load_or_create_conv` takes the healing path rather than the hard
error: it creates a new remote thread, overwrites the persisted record with
the new thread id, and returns the new conversation (for either value of
`recreate`, given that thread creation and persisting succeed). -/
theorem conv_invalid_record_heals (env : ConvEnv) (recreate : Bool) (nid : String)
    (hFile : env.convFile = ConvFile.invalid)
    (hCT : env.createThread = .ok nid)
    (hSave : env.saveConv = .ok ()) :
    load_or_create_conv env recreate = ⟨.ok nid, ConvFile.valid nid, true⟩ := by
  cases recreate <;>
    simp [load_or_create_conv, conv_effective_file, load_from_json_conv, hFile, hCT, hSave]

theorem conv_invalid_record_heals_witness :
    load_or_create_conv
        ⟨ConvFile.invalid, fun _ => .ok (), .ok "thread_9", .ok ()⟩ false =
      ⟨.ok "thread_9", ConvFile.valid "thread_9", true⟩ :=
  conv_invalid_record_heals
    ⟨ConvFile.invalid, fun _ => .ok (), .ok "thread_9", .ok ()⟩ false "thread_9"
    rfl rfl rfl

/-- C5: bundling depends only on the ordered input list and the contents of
those inputs: two runs against filesystems that agree on every input file
produce byte-identical bundle content (so repeated runs on unchanged sources
are byte-identical). -/
theorem bundle_deterministic (fs1 fs2 : String → Option (List String))
    (files : List String) (h : ∀ f ∈ files, fs1 f = fs2 f) :
    bundle_to_file fs1 files = bundle_to_file fs2 files := by
  induction files with
  | nil => rfl
  | cons g rest ih =>
    have hg : fs1 g = fs2 g := h g (by simp)
    have hrest : ∀ f ∈ rest, fs1 f = fs2 f := fun f hf => h f (by simp [hf])
    simp only [bundle_to_file, hg, ih hrest]

theorem bundle_deterministic_witness :
    bundle_to_file (fun f => if f = "a.rs" then some ["fn main()"] else none) ["a.rs"] =
      bundle_to_file (fun f => if f = "a.rs" then some ["fn main()"] else some ["other"])
        ["a.rs"] :=
  bundle_deterministic
    (fun f => if f = "a.rs" then some ["fn main()"] else none)
    (fun f => if f = "a.rs" then some ["fn main()"] else some ["other"])
    ["a.rs"] (by intro f hf; fin_cases hf; decide)

/-- C6: when every input is a regular file, `bundle_to_file` produces, in
input order, the header marker carrying the file's path, the file's lines
verbatim (each with its newline), and the blank separator, concatenated; and
when any input path is not a regular file, the call fails. -/
theorem bundle_content_and_nonfile_failure (fs : String → Option (List String))
    (files : List String) :
    ((∀ f ∈ files, (fs f).isSome) →
      bundle_to_file fs files =
        .ok ((files.map (fun f => bundle_render_file f ((fs f).getD []))).foldr
          (fun a b => a ++ b) "")) ∧
    (∀ f ∈ files, fs f = none → ∃ e, bundle_to_file fs files = .error e) := by
  induction files with
  | nil => exact ⟨fun _ => rfl, by simp⟩
  | cons g rest ih =>
    constructor
    · intro hall
      obtain ⟨ls, hls⟩ := Option.isSome_iff_exists.mp (hall g (by simp))
      have hrest := ih.1 (fun f hf => hall f (by simp [hf]))
      simp only [bundle_to_file, hls, hrest, List.map_cons, List.foldr_cons, hls,
        Option.getD_some]
    · intro f hf hnone
      rcases List.mem_cons.mp hf with rfl | hf2
      · exact ⟨bundle_not_file_msg f, by simp [bundle_to_file, hnone]⟩
      · cases hfg : fs g with
        | none => exact ⟨bundle_not_file_msg g, by simp [bundle_to_file, hfg]⟩
        | some ls =>
          obtain ⟨e, he⟩ := ih.2 f hf2 hnone
          exact ⟨e, by simp [bundle_to_file, hfg, he]⟩

theorem bundle_content_and_nonfile_failure_witness :
    (∃ s, bundle_to_file
        (fun f => if f = "a.rs" then some ["fn main()"] else none) ["a.rs"] = .ok s) ∧
    (∃ e, bundle_to_file
        (fun f => if f = "a.rs" then some ["fn main()"] else none) ["b.tmp"] = .error e) :=
  ⟨⟨_, (bundle_content_and_nonfile_failure
      (fun f => if f = "a.rs" then some ["fn main()"] else none) ["a.rs"]).1
      (by intro f hf; fin_cases hf; decide)⟩,
    (bundle_content_and_nonfile_failure
      (fun f => if f = "a.rs" then some ["fn main()"] else none) ["b.tmp"]).2
      "b.tmp" (by decide) (by decide)⟩

/-- C9 counterexample: a stale bundle file under the hidden directory whose
name does not contain the current assistant id, but whose extension is
neither `.rs` nor `.md` (a configurable `dst_ext` such as `txt`), is not a
purge candidate: the cleanup finishes without error and deletes nothing, so
"purges every stale bundle file … (names not containing the current
assistant id)" is false as stated. -/
theorem upload_files_purge_misses_other_extension :
    strContains "p/.buddy/files/b-bundle-asst_old.txt" ".buddy" = true ∧
    strContains "p/.buddy/files/b-bundle-asst_old.txt" "asst_new" = false ∧
    upload_files_clean "asst_new" ["p/.buddy/files/b-bundle-asst_old.txt"] = ([], none) := by
  refine ⟨?_, ?_, ?_⟩ <;> decide

/-- Helper: a run of candidates that all pass the `.buddy` safeguard is
removed in order without error. -/
lemma purge_loop_all_safe (l : List String) (acc : List String)
    (h : ∀ f ∈ l, strContains f ".buddy" = true) :
    purge_loop l acc = (acc ++ l, none) := by
  induction l generalizing acc with
  | nil => simp [purge_loop]
  | cons g rest ih =>
    have hg := h g (by simp)
    have hrest : ∀ f ∈ rest, strContains f ".buddy" = true :=
      fun f hf => h f (by simp [hf])
    simp [purge_loop, hg, ih _ hrest]

/-- Helper: a candidate failing the `.buddy` safeguard makes the loop stop
with an error, and that candidate is never removed. -/
lemma purge_loop_unsafe_stops (l : List String) (f : String)
    (hu : strContains f ".buddy" = false) :
    ∀ acc, f ∈ l → f ∉ acc →
      (purge_loop l acc).2.isSome = true ∧ f ∉ (purge_loop l acc).1 := by
  induction l with
  | nil => intro acc hf _; cases hf
  | cons g rest ih =>
    intro acc hf hacc
    by_cases hg : strContains g ".buddy" = true
    · have hne : f ≠ g := by
        intro hEq
        rw [hEq, hg] at hu
        cases hu
      have hf2 : f ∈ rest := by
        rcases List.mem_cons.mp hf with rfl | h2
        · exact absurd rfl hne
        · exact h2
      have hacc2 : f ∉ acc ++ [g] := by simp [hacc, hne]
      simpa [purge_loop, hg] using ih (acc ++ [g]) hf2 hacc2
    · have hg' : strContains g ".buddy" = false := by
        cases hval : strContains g ".buddy"
        · rfl
        · exact absurd hval hg
      refine ⟨?_, ?_⟩ <;> simp [purge_loop, hg', hacc]

/-- C9 (amended): before any rebundling, `upload_files` purges, in listing
order, every stale `.rs`/`.md` file of the hidden data directory whose path
does not contain the current assistant id, provided each candidate's path
contains `".buddy"`; and any candidate whose path string lacks `".buddy"`
stops the cleanup with an error instead of being deleted. -/
theorem upload_files_purge_correct (asstId : String) (dataFiles : List String) :
    ((∀ f ∈ purge_candidates asstId dataFiles, strContains f ".buddy" = true) →
      upload_files_clean asstId dataFiles = (purge_candidates asstId dataFiles, none)) ∧
    (∀ f ∈ purge_candidates asstId dataFiles, strContains f ".buddy" = false →
      (upload_files_clean asstId dataFiles).2.isSome = true ∧
        f ∉ (upload_files_clean asstId dataFiles).1) := by
  constructor
  · intro h
    simpa [upload_files_clean] using purge_loop_all_safe _ [] h
  · intro f hf hu
    exact purge_loop_unsafe_stops _ f hu [] hf (by simp)

theorem upload_files_purge_correct_witness :
    upload_files_clean "asst_new" ["p/.buddy/files/a-asst_old.md"] =
      (purge_candidates "asst_new" ["p/.buddy/files/a-asst_old.md"], none) ∧
    ((upload_files_clean "asst_new" ["evil.md"]).2.isSome = true ∧
      "evil.md" ∉ (upload_files_clean "asst_new" ["evil.md"]).1) :=
  ⟨(upload_files_purge_correct "asst_new" ["p/.buddy/files/a-asst_old.md"]).1 (by decide),
    (upload_files_purge_correct "asst_new" ["evil.md"]).2 "evil.md" (by decide) (by decide)⟩
